import Mathlib

/-!
Verification development for the YT-Transcripter backend
(src/backend/app.py). Python strings are embedded as `List Char`;
the Python whitespace class is modelled by its ASCII members, which is
the only part exercised by this code. External services (the transcript
provider, the generative API, the metadata API) are modelled as the
values they return for the single request under consideration.
-/

namespace YT

/-- ASCII whitespace, the fragment of the Python whitespace class
(`str.strip`, `str.split`, the regex class `\s`) relevant here. -/
def isPySpace (c : Char) : Bool :=
  c == ' ' || c == '\t' || c == '\n' || c == '\r' || c == '\x0b' || c == '\x0c'

/-- Python `text.strip()`: drop leading and trailing whitespace. -/
def pyStrip (l : List Char) : List Char :=
  ((l.dropWhile isPySpace).reverse.dropWhile isPySpace).reverse

/-- Python `text.split("\n")`: split on every newline; the empty string
yields one empty line. -/
def splitLines : List Char → List (List Char)
  | [] => [[]]
  | c :: rest =>
    match splitLines rest with
    | [] => [[]]
    | line :: lines =>
      if c = '\n' then [] :: line :: lines else (c :: line) :: lines

/-- Helper for Python `text.split()` (no separator): accumulate the
current word, emitting it at each whitespace run or at the end. -/
def pySplitAux : List Char → List Char → List (List Char)
  | [], acc => if acc.isEmpty then [] else [acc.reverse]
  | c :: rest, acc =>
    if isPySpace c then
      if acc.isEmpty then pySplitAux rest []
      else acc.reverse :: pySplitAux rest []
    else pySplitAux rest (c :: acc)

/-- Python `text.split()`: whitespace-separated tokens, empties discarded. -/
def pySplit (l : List Char) : List (List Char) := pySplitAux l []

/-- Membership in the regex class `[0-9A-Za-z_-]` of app.py. -/
def isIdChar (c : Char) : Bool :=
  c.isDigit || c.isUpper || c.isLower || c == '_' || c == '-'

/-- Attempt of the regex `<pat>([0-9A-Za-z_-]{11})` at one position:
the literal prefix must be present, followed by eleven id characters,
which form the captured group. -/
def matchAt (pat l : List Char) : Option (List Char) :=
  if pat.isPrefixOf l then
    let tok := (l.drop pat.length).take 11
    if tok.length = 11 && tok.all isIdChar then some tok else none
  else none

/-- The semantics of `re.search` for the patterns of app.py: try each
position left to right, returning the first captured group. -/
def searchPat (pat : List Char) : List Char → Option (List Char)
  | [] => matchAt pat []
  | c :: rest =>
    match matchAt pat (c :: rest) with
    | some t => some t
    | none => searchPat pat rest

/-- The literal prefix of the first pattern of `extract_video_id`. -/
def pat_v : List Char := "v=".toList

/-- The literal prefix of the second pattern (the regex escapes the
dot, so it is the literal string). -/
def pat_youtu : List Char := "youtu.be/".toList

/-- The literal prefix of the third pattern. -/
def pat_embed : List Char := "embed/".toList

/-- The literal prefixes of the three patterns of `extract_video_id`,
in source order. -/
def url_patterns : List (List Char) := [pat_v, pat_youtu, pat_embed]

/-- Embedding of `extract_video_id` (app.py): try the three patterns in
order and return the first captured group, else the not-found signal. -/
def extract_video_id (url : List Char) : Option (List Char) :=
  url_patterns.findSome? (fun pat => searchPat pat url)

/-- The character budget of `trim_to_char_limit` (its default parameter,
the only value used). -/
def char_limit : Nat := 4000

/-- Embedding of `trim_to_char_limit` (app.py): `text` when within the
budget, else its first `char_limit` characters. -/
def trim_to_char_limit (text : List Char) : List Char :=
  if text.length ≤ char_limit then text else text.take char_limit

/-- A Python exception as far as this backend distinguishes them: the
`TranscriptsDisabled` class, or any other exception carried with its
message (`str(e)`). -/
inductive PyExc where
  | transcriptsDisabled
  | other (msg : List Char)
deriving DecidableEq

/-- One transcript entry returned by the transcript provider; only
`text` is consumed downstream. -/
structure TEntry where
  text : List Char
  start : ℚ
  duration : ℚ
deriving DecidableEq

instance {ε α : Type} [DecidableEq ε] [DecidableEq α] :
    DecidableEq (Except ε α) := fun x y =>
  match x, y with
  | .ok a, .ok b =>
    if h : a = b then isTrue (by rw [h])
    else isFalse (by intro hc; cases hc; exact h rfl)
  | .error a, .error b =>
    if h : a = b then isTrue (by rw [h])
    else isFalse (by intro hc; cases hc; exact h rfl)
  | .ok _, .error _ => isFalse (by intro hc; cases hc)
  | .error _, .ok _ => isFalse (by intro hc; cases hc)

/-- The behaviour of the external transcript provider for the video of
the current request: the outcome of the English fetch, and the outcome
of the list-tracks/find-Hindi/fetch sequence. -/
structure TranscriptApi where
  get_transcript_en : Except PyExc (List TEntry)
  list_find_fetch_hi : Except PyExc (List TEntry)
deriving DecidableEq

/-- Embedding of `get_transcript_fallback` (app.py). The English fetch
is tried first; `TranscriptsDisabled` is re-raised as is; on any other
failure the Hindi track is fetched; if that fails too, the source runs
`raise e` where `e` is bound by the INNER `except Exception as e`, so
the Hindi exception is the one propagated. -/
def get_transcript_fallback (api : TranscriptApi) : Except PyExc (List TEntry) :=
  match api.get_transcript_en with
  | .ok t => .ok t
  | .error .transcriptsDisabled => .error .transcriptsDisabled
  | .error _ =>
    match api.list_find_fetch_hi with
    | .ok t => .ok t
    | .error e => .error e

/-- Test of the regex `^[\-•]\s+` used by `re.match` in the
composer loop: a leading '-' or '•' followed by a whitespace character. -/
def bullet_match : List Char → Bool
  | c1 :: c2 :: _ => (c1 == '-' || c1 == '•') && isPySpace c2
  | _ => false

/-- The character set of `line.lstrip("-• ")`. -/
def isBulletStripChar (c : Char) : Bool :=
  c == '-' || c == '•' || c == ' '

/-- Python `line.lstrip("-• ").strip()` applied to a bullet line. -/
def strip_bullet_line (line : List Char) : List Char :=
  pyStrip (line.dropWhile isBulletStripChar)

/-- The loop state of the composer in `summarize_video`: accumulated
prose lines, accumulated bullet lines, and the `hit_bullets` flag. -/
structure ScanState where
  summary_lines : List (List Char)
  bullets : List (List Char)
  hit_bullets : Bool
deriving DecidableEq

/-- One iteration of the composer loop: set the flag on a bullet match,
then route the line to the bullet list (stripped) when the flag is up,
else to the prose list. -/
def scanStep (st : ScanState) (line : List Char) : ScanState :=
  let hit := st.hit_bullets || bullet_match line
  if hit then
    { st with hit_bullets := true,
              bullets := st.bullets ++ [strip_bullet_line line] }
  else
    { st with summary_lines := st.summary_lines ++ [line] }

/-- The composer loop over all lines, started with empty accumulators
and the flag down. -/
def scan_lines (lines : List (List Char)) : ScanState :=
  lines.foldl scanStep ⟨[], [], false⟩

/-- The prose/bullet composition of `summarize_video`: split the
summarizer output on newlines, run the scan, join the prose lines with
single spaces and strip, and keep only non-empty bullets. -/
def compose_summary (out : List Char) : List Char × List (List Char) :=
  let st := scan_lines (splitLines out)
  (pyStrip (List.intercalate [' '] st.summary_lines),
   st.bullets.filter (fun b => !b.isEmpty))

/-- Fuel-based binary logarithm, structurally recursive so the kernel
can evaluate it: the largest k with 2 ^ k ≤ n (0 for n < 2) once the
fuel is at least n. -/
def nlog2Aux : ℕ → ℕ → ℕ
  | 0, _ => 0
  | fuel + 1, n => if 2 ≤ n then nlog2Aux fuel (n / 2) + 1 else 0

/-- Binary logarithm of a natural number (0 for n < 2). -/
def nlog2 (n : ℕ) : ℕ := nlog2Aux n n

/-- Whether 2 ^ e ≤ a / b (b positive), in integer arithmetic. -/
def pow2LE (e : ℤ) (a b : ℕ) : Bool :=
  match e with
  | .ofNat k => b * 2 ^ k ≤ a
  | .negSucc k => b ≤ a * 2 ^ (k + 1)

/-- Binary exponent of the positive rational a / b: the e with
2 ^ e ≤ a / b < 2 ^ (e + 1), from an integer-log guess with a one-step
fix-up. -/
def dyadicExp (a b : ℕ) : ℤ :=
  let g : ℤ :=
    if b ≤ a then Int.ofNat (nlog2 (a / b))
    else -(Int.ofNat (nlog2 (b / a)) + 1)
  if pow2LE (g + 1) a b then g + 1
  else if pow2LE g a b then g
  else g - 1

/-- Round the nonnegative rational N / D to the nearest natural number,
ties to even: the tie rule of IEEE-754 and of Python round. -/
def halfEvenNat (N D : ℕ) : ℕ :=
  let f := N / D
  let r := N % D
  if 2 * r < D then f
  else if D < 2 * r then f + 1
  else if f % 2 = 0 then f else f + 1

/-- Mantissa of the binary64 value nearest to a / b at exponent e: the
rational scaled by 2 ^ (52 - e) and rounded half-even into
[2 ^ 52, 2 ^ 53]. -/
def mantissa52 (a b : ℕ) (e : ℤ) : ℕ :=
  if e ≤ 52 then halfEvenNat (a * 2 ^ (52 - e).toNat) b
  else halfEvenNat a (b * 2 ^ (e - 52).toNat)

/-- The IEEE-754 binary64 (round to nearest, ties to even) closest to
the nonnegative rational a / b, as a mantissa/exponent pair of value
mantissa * 2 ^ (exponent - 52). Normal range only: every value this
pipeline rounds is far inside it, so subnormals and overflow are not
modelled. -/
def floatOfRatAux (a b : ℕ) : ℕ × ℤ :=
  if a = 0 then (0, 0)
  else
    let e := dyadicExp a b
    (mantissa52 a b e, e)

/-- The exact rational value of a mantissa/exponent pair. -/
def dyadicVal (p : ℕ × ℤ) : ℚ :=
  if 52 ≤ p.2 then ((p.1 * 2 ^ (p.2 - 52).toNat : ℕ) : ℚ)
  else ((p.1 : ℕ) : ℚ) / ((2 ^ (52 - p.2).toNat : ℕ) : ℚ)

/-- Python round(x, 1) on a nonnegative double x given as a
mantissa/exponent pair: CPython rounds the EXACT binary value of the
double to one decimal digit, ties to even, and returns the double
nearest to the resulting r / 10. -/
def pyRound1Pair (p : ℕ × ℤ) : ℕ × ℤ :=
  let r : ℕ :=
    match p.2 - 52 with
    | .ofNat k => p.1 * 10 * 2 ^ k
    | .negSucc k => halfEvenNat (p.1 * 10) (2 ^ (k + 1))
  floatOfRatAux r 10

/-- Embedding of `round(word_count / 200, 1)` (app.py): the Python int
division word_count / 200 yields the binary64 nearest to the exact
quotient, and round then rounds that double to one decimal place as
described above. The result is the exact rational value of the final
double. Checked against CPython on word counts 0-60, 70, 90, 123, 399,
400 and 2000, tie cases included. -/
def py_reading_time (word_count : ℕ) : ℚ :=
  dyadicVal (pyRound1Pair (floatOfRatAux word_count 200))

/-- Modelled from the spec: the reading of "word_count / 200 rounded to
one decimal place" on exact rationals, for comparison with the source
embedding `py_reading_time`. Tenths are word_count / 20 rounded to an
integer with ties to even; at the counterexample input the ties-up rule
gives the same value. -/
def spec_reading_time (word_count : ℕ) : ℚ :=
  ((halfEvenNat word_count 20 : ℕ) : ℚ) / 10

/-- Result of `fetch_video_info`: the empty mapping on any failure or
missing key, else the snippet triple. -/
inductive VideoInfo where
  | empty
  | snippet (title channel publishedAt : Option (List Char))
deriving DecidableEq

/-- The fixed `tags` constant of the success payload. -/
def fixed_tags : List (List Char) :=
  ["AI".toList, "Gemini".toList, "YouTube".toList, "Summary".toList]

/-- The success payload assembled by `summarize_video`. -/
structure Payload where
  transcript : List Char
  summary : List Char
  keyPoints : List (List Char)
  tags : List (List Char)
  wordCount : Nat
  readingTime : ℚ
  videoInfo : VideoInfo
deriving DecidableEq

/-- An HTTP response of the endpoint: an error with status code and
message, or the 200 success payload. -/
inductive HttpResponse where
  | err (status : Nat) (message : List Char)
  | ok (payload : Payload)
deriving DecidableEq

/-- The environment of one request: the request body url field, the
transcript provider behaviour, the text the generative API returns for
the request, and the metadata result. -/
structure RequestEnv where
  url : Option (List Char)
  api : TranscriptApi
  gemini_out : List Char
  video_info : VideoInfo

/-- The failure marker of `generate_summary_with_gemini`. -/
def failure_marker : List Char := "Failed to generate summary: ".toList

/-- Embedding of the endpoint `summarize_video` (app.py): validate the
url, extract the video id, fetch the transcript with fallback, trim,
check the summarizer output for the failure marker, compose, count
words of the trimmed transcript, and assemble the payload. The two
`except` clauses at the end map `TranscriptsDisabled` to a 400 and any
other exception to a 500 carrying its message. -/
def summarize_video (env : RequestEnv) : HttpResponse :=
  match env.url with
  | none => .err 400 ("No URL provided".toList)
  | some url =>
    if url.isEmpty then .err 400 ("No URL provided".toList)
    else
      match extract_video_id url with
      | none => .err 400 ("Invalid YouTube URL".toList)
      | some _vid =>
        match get_transcript_fallback env.api with
        | .error .transcriptsDisabled =>
          .err 400 ("Transcript disabled for this video".toList)
        | .error (.other msg) => .err 500 (failure_marker ++ msg)
        | .ok transcript =>
          let texts := transcript.map (fun e => e.text)
          let full_text := List.intercalate [' '] texts
          let trimmed := trim_to_char_limit full_text
          let out := env.gemini_out
          if ("Failed to generate summary:".toList).isPrefixOf out then
            .err 500 out
          else
            let composed := compose_summary out
            let word_count := (pySplit trimmed).length
            { transcript := trimmed
              summary := composed.1
              keyPoints := composed.2
              tags := fixed_tags
              wordCount := word_count
              readingTime := py_reading_time word_count
              videoInfo := env.video_info : Payload }
            |> .ok

/-- C2: `trim_to_char_limit` returns `text` unchanged when its length is
at most 4000, returns exactly the first 4000 characters when longer,
always produces a result of length at most 4000, and is idempotent. -/
theorem trim_to_char_limit_spec (text : List Char) :
    (text.length ≤ 4000 → trim_to_char_limit text = text) ∧
    (4000 < text.length → trim_to_char_limit text = text.take 4000) ∧
    (trim_to_char_limit text).length ≤ 4000 ∧
    trim_to_char_limit (trim_to_char_limit text) = trim_to_char_limit text := by
  have hgen : ∀ l : List Char, l.length ≤ 4000 → trim_to_char_limit l = l := by
    intro l hl
    unfold trim_to_char_limit char_limit
    rw [if_pos hl]
  by_cases h : text.length ≤ 4000
  · exact ⟨fun _ => hgen text h, fun hc => absurd h (Nat.not_le.mpr hc),
      by rw [hgen text h]; exact h, by rw [hgen text h, hgen text h]⟩
  · have he : trim_to_char_limit text = text.take 4000 := by
      unfold trim_to_char_limit char_limit
      rw [if_neg h]
    have hlen : (trim_to_char_limit text).length ≤ 4000 := by
      rw [he]
      exact List.length_take_le 4000 text
    exact ⟨fun hc => absurd hc h, fun _ => he, hlen, hgen _ hlen⟩

/-- Witness for C2 at the three-character text "abc". -/
theorem trim_to_char_limit_spec_witness :
    trim_to_char_limit ("abc".toList) = "abc".toList :=
  (trim_to_char_limit_spec ("abc".toList)).1 (by decide)

/-- C1 fails on the code: when the English fetch raises a generic
exception and the Hindi fetch also raises, `raise e` in app.py re-raises
the exception bound by the INNER `except Exception as e`, so the HINDI
exception propagates, contradicting the adjacent source comment and the
spec, which promise the original English exception. -/
theorem fallback_propagates_hindi_error (eEn eHi : List Char) :
    get_transcript_fallback
      ⟨Except.error (PyExc.other eEn), Except.error (PyExc.other eHi)⟩ =
      Except.error (PyExc.other eHi) := rfl

/-- C9: when the English fetch fails with a non-disabled exception and
the Hindi track fetch succeeds, the fallback returns the Hindi entries. -/
theorem fallback_hindi_success (api : TranscriptApi) (e : PyExc)
    (t : List TEntry)
    (hen : api.get_transcript_en = .error e)
    (hne : e ≠ PyExc.transcriptsDisabled)
    (hhi : api.list_find_fetch_hi = .ok t) :
    get_transcript_fallback api = .ok t := by
  unfold get_transcript_fallback
  rw [hen]
  cases e with
  | transcriptsDisabled => exact absurd rfl hne
  | other msg => rw [hhi]

/-- Witness for C9: a concrete provider whose English fetch raises a
generic error and whose Hindi fetch succeeds. -/
theorem fallback_hindi_success_witness :
    get_transcript_fallback
      ⟨Except.error (PyExc.other ("no english track".toList)),
       Except.ok [⟨"hindi text".toList, 0, 1⟩]⟩ =
      Except.ok [⟨"hindi text".toList, 0, 1⟩] :=
  fallback_hindi_success _ _ _ rfl (by decide) rfl

/-- C6: a disabled-transcripts condition from the English fetch is
re-raised as is, the result does not depend on the Hindi behaviour (no
fallback attempted), and the endpoint maps it to a 400 response with
message "Transcript disabled for this video". -/
theorem transcript_disabled_spec (api : TranscriptApi)
    (hi : Except PyExc (List TEntry)) (env : RequestEnv) (u v : List Char)
    (hdis : api.get_transcript_en = .error .transcriptsDisabled)
    (henv : env.api = api) (hurl : env.url = some u)
    (hne : u.isEmpty = false) (hv : extract_video_id u = some v) :
    get_transcript_fallback api = .error PyExc.transcriptsDisabled ∧
    get_transcript_fallback { api with list_find_fetch_hi := hi } =
      .error PyExc.transcriptsDisabled ∧
    summarize_video env =
      .err 400 ("Transcript disabled for this video".toList) := by
  have h1 : get_transcript_fallback api = .error PyExc.transcriptsDisabled := by
    unfold get_transcript_fallback
    rw [hdis]
  have h2 : get_transcript_fallback { api with list_find_fetch_hi := hi } =
      .error PyExc.transcriptsDisabled := by
    unfold get_transcript_fallback
    show (match api.get_transcript_en with
      | .ok t => Except.ok t
      | .error .transcriptsDisabled => Except.error PyExc.transcriptsDisabled
      | .error _ =>
        match hi with
        | .ok t => Except.ok t
        | .error e => Except.error e) = .error PyExc.transcriptsDisabled
    rw [hdis]
  refine ⟨h1, h2, ?_⟩
  unfold summarize_video
  rw [hurl, henv]
  simp only [hne, Bool.false_eq_true, if_false, hv, h1]

/-- Witness for C6: a concrete request whose video has transcripts
disabled yields the 400 response. -/
theorem transcript_disabled_spec_witness :
    summarize_video
      { url := some ("v=abcdefghijk".toList),
        api := ⟨Except.error PyExc.transcriptsDisabled, Except.ok []⟩,
        gemini_out := [],
        video_info := .empty } =
      .err 400 ("Transcript disabled for this video".toList) :=
  (transcript_disabled_spec
    ⟨Except.error PyExc.transcriptsDisabled, Except.ok []⟩ (Except.ok []) _
    ("v=abcdefghijk".toList) ("abcdefghijk".toList)
    rfl rfl rfl (by decide) (by decide)).2.2

/-- Scan invariant: from a state with the flag up, every remaining line
is stripped and appended to the bullet list, the prose lines never
change, and the flag stays up. -/
theorem foldl_scan_hit :
    ∀ (rest : List (List Char)) (st : ScanState), st.hit_bullets = true →
      (List.foldl scanStep st rest).summary_lines = st.summary_lines ∧
      (List.foldl scanStep st rest).bullets =
        st.bullets ++ rest.map strip_bullet_line ∧
      (List.foldl scanStep st rest).hit_bullets = true := by
  intro rest
  induction rest with
  | nil =>
    intro st h
    exact ⟨rfl, by simp, h⟩
  | cons l rs ih =>
    intro st h
    have hstep : scanStep st l =
        { st with hit_bullets := true,
                  bullets := st.bullets ++ [strip_bullet_line l] } := by
      unfold scanStep
      rw [h]
      rfl
    rw [List.foldl_cons, hstep]
    obtain ⟨h1, h2, h3⟩ := ih
      { st with hit_bullets := true,
                bullets := st.bullets ++ [strip_bullet_line l] } rfl
    refine ⟨h1, ?_, h3⟩
    rw [h2]
    simp

/-- Scan invariant: from a state with the flag down, a run of lines
none of which matches the bullet pattern goes entirely to the prose
list, leaves the bullet list untouched, and keeps the flag down. -/
theorem foldl_scan_nohit :
    ∀ (lines : List (List Char)) (st : ScanState), st.hit_bullets = false →
      (∀ line ∈ lines, bullet_match line = false) →
      (List.foldl scanStep st lines).summary_lines =
        st.summary_lines ++ lines ∧
      (List.foldl scanStep st lines).bullets = st.bullets ∧
      (List.foldl scanStep st lines).hit_bullets = false := by
  intro lines
  induction lines with
  | nil =>
    intro st h _
    exact ⟨by simp, rfl, h⟩
  | cons l rs ih =>
    intro st h hall
    have hl : bullet_match l = false := hall l (List.mem_cons_self l rs)
    have hstep : scanStep st l =
        { st with summary_lines := st.summary_lines ++ [l] } := by
      unfold scanStep
      rw [h, hl]
      rfl
    rw [List.foldl_cons, hstep]
    obtain ⟨h1, h2, h3⟩ := ih
      { st with summary_lines := st.summary_lines ++ [l] } h
      (fun line hm => hall line (List.mem_cons_of_mem l hm))
    refine ⟨?_, h2, h3⟩
    rw [h1]
    simp

/-- C3: the bullet latch is one-way. Processing a line that matches the
bullet pattern (or starting from a state whose flag is already up) puts
the flag up, routes that line away from the prose list, and from then on
every subsequent line, matching or not, is bullet-prefix-stripped and
appended to the bullet list while the prose list never grows again. -/
theorem scan_latch (line : List Char) (st : ScanState)
    (rest : List (List Char))
    (h : bullet_match line = true ∨ st.hit_bullets = true) :
    (scanStep st line).hit_bullets = true ∧
    (scanStep st line).summary_lines = st.summary_lines ∧
    (List.foldl scanStep (scanStep st line) rest).summary_lines =
      st.summary_lines ∧
    (List.foldl scanStep (scanStep st line) rest).bullets =
      (scanStep st line).bullets ++ rest.map strip_bullet_line := by
  have hcond : (st.hit_bullets || bullet_match line) = true := by
    rcases h with h | h
    · rw [h, Bool.or_true]
    · rw [h, Bool.true_or]
  have hstep : scanStep st line =
      { st with hit_bullets := true,
                bullets := st.bullets ++ [strip_bullet_line line] } := by
    unfold scanStep
    rw [hcond]
    rfl
  obtain ⟨h1, h2, _⟩ := foldl_scan_hit rest (scanStep st line)
    (by rw [hstep])
  refine ⟨by rw [hstep], by rw [hstep], ?_, h2⟩
  rw [h1, hstep]

/-- Witness for C3: after the matching line "- a", the non-matching line
"no bullet" is still appended (stripped) to the bullet list and the
prose list stays empty. -/
theorem scan_latch_witness :
    (List.foldl scanStep
      (scanStep ⟨[], [], false⟩ ("- a".toList))
      [("no bullet".toList)]).summary_lines = [] ∧
    (List.foldl scanStep
      (scanStep ⟨[], [], false⟩ ("- a".toList))
      [("no bullet".toList)]).bullets =
      (scanStep ⟨[], [], false⟩ ("- a".toList)).bullets ++
        [strip_bullet_line ("no bullet".toList)] :=
  ⟨(scan_latch ("- a".toList) ⟨[], [], false⟩ [("no bullet".toList)]
      (Or.inl (by decide))).2.2.1,
   (scan_latch ("- a".toList) ⟨[], [], false⟩ [("no bullet".toList)]
      (Or.inl (by decide))).2.2.2⟩

/-- C4 fails as stated on whitespace-bordered text: the composer strips
the joined prose, so for the bullet-free single-line text " a" the
summary is "a", not the full joined text " a" (which here is the text
itself). -/
theorem compose_summary_strip_cex :
    (∀ line ∈ splitLines (" a".toList), bullet_match line = false) ∧
    (compose_summary (" a".toList)).2 = [] ∧
    (compose_summary (" a".toList)).1 ≠ " a".toList := by
  refine ⟨by decide, by decide, by decide⟩

/-- C4 amended: the spec example composes exactly as stated, and for
bullet-free text the key points are empty and the summary equals the
space-joined lines STRIPPED of leading and trailing whitespace. -/
theorem compose_summary_spec :
    compose_summary ("Intro line.\n- point one\n- point two".toList) =
      ("Intro line.".toList,
       ["point one".toList, "point two".toList]) ∧
    ∀ out : List Char,
      (∀ line ∈ splitLines out, bullet_match line = false) →
      (compose_summary out).2 = [] ∧
      (compose_summary out).1 =
        pyStrip (List.intercalate [' '] (splitLines out)) := by
  refine ⟨by decide, ?_⟩
  intro out hall
  obtain ⟨h1, h2, _⟩ :=
    foldl_scan_nohit (splitLines out) ⟨[], [], false⟩ rfl hall
  simp only [compose_summary, scan_lines]
  rw [h1, h2]
  exact ⟨rfl, rfl⟩

/-- Witness for C4 at the bullet-free text "hello\nworld". -/
theorem compose_summary_spec_witness :
    (compose_summary ("hello\nworld".toList)).2 = [] :=
  (compose_summary_spec.2 ("hello\nworld".toList) (by decide)).1

/-- A successful position match yields exactly the captured group: an
eleven character token over the id alphabet. -/
theorem matchAt_sound {pat l t : List Char} (h : matchAt pat l = some t) :
    t.length = 11 ∧ t.all isIdChar = true := by
  simp only [matchAt] at h
  split at h
  · split at h
    · rename_i hc
      cases h
      simp only [Bool.and_eq_true, decide_eq_true_eq] at hc
      exact hc
    · cases h
  · cases h

/-- The search only ever returns captured groups, hence full eleven
character id tokens, never a partial or incorrect capture. -/
theorem searchPat_sound {pat : List Char} :
    ∀ {l t : List Char}, searchPat pat l = some t →
      t.length = 11 ∧ t.all isIdChar = true := by
  intro l
  induction l with
  | nil =>
    intro t h
    rw [searchPat] at h
    exact matchAt_sound h
  | cons c rest ih =>
    intro t h
    rw [searchPat] at h
    cases hm : matchAt pat (c :: rest) with
    | some u =>
      simp only [hm] at h
      cases h
      exact matchAt_sound hm
    | none =>
      simp only [hm] at h
      exact ih h

/-- A match at the current position is what the search returns there. -/
theorem searchPat_of_matchAt {pat l t : List Char}
    (h : matchAt pat l = some t) : searchPat pat l = some t := by
  cases l with
  | nil =>
    rw [searchPat]
    exact h
  | cons c rest =>
    rw [searchPat]
    simp only [h]

/-- At a position where the literal prefix is immediately followed by a
valid eleven character token, the match captures exactly that token. -/
theorem matchAt_append {pat tok : List Char} (h11 : tok.length = 11)
    (hall : tok.all isIdChar = true) :
    matchAt pat (pat ++ tok) = some tok := by
  have hp : pat.isPrefixOf (pat ++ tok) = true :=
    List.isPrefixOf_iff_prefix.mpr ( List.prefix_append pat tok)
  have hd : (pat ++ tok).drop pat.length = tok := List.drop_left pat tok
  have ht : tok.take 11 = tok := List.take_of_length_le h11.le
  simp [matchAt, hp, hd, ht, h11, hall]

/-- If some character of the pattern occurs nowhere in the searched
string, the search fails at every position. -/
theorem searchPat_none_of_not_mem (c : Char) (pat : List Char)
    (hc : c ∈ pat) :
    ∀ {l : List Char}, c ∉ l → searchPat pat l = none := by
  intro l
  induction l with
  | nil =>
    intro _
    rw [searchPat]
    unfold matchAt
    have hnp : ¬ pat.isPrefixOf ([] : List Char) = true := by
      intro hp
      have hpre := List.isPrefixOf_iff_prefix.mp hp
      rw [ List.prefix_nil] at hpre
      subst hpre
      cases hc
    rw [if_neg hnp]
  | cons a rest ih =>
    intro hl
    have hm : matchAt pat (a :: rest) = none := by
      unfold matchAt
      have hnp : ¬ pat.isPrefixOf (a :: rest) = true := by
        intro hp
        exact hl (( List.isPrefixOf_iff_prefix.mp hp).sublist.subset hc)
      rw [if_neg hnp]
    rw [searchPat, hm]
    exact ih (fun h => hl (List.mem_cons_of_mem a h))

/-- A character outside the id alphabet and absent from a literal
prefix does not occur in that prefix followed by a valid token. -/
theorem not_mem_append_idtok {c : Char} {pre tok : List Char}
    (hpre : c ∉ pre) (hid : isIdChar c = false)
    (htok : tok.all isIdChar = true) : c ∉ pre ++ tok := by
  intro h
  rcases List.mem_append.mp h with h | h
  · exact hpre h
  · rw [List.all_eq_true] at htok
    have h2 := htok c h
    rw [hid] at h2
    cases h2

/-- The extractor is the first-match composition of the three searches
in source order. -/
theorem extract_video_id_eq_or (url : List Char) :
    extract_video_id url =
      ((searchPat pat_v url).or
        ((searchPat pat_youtu url).or (searchPat pat_embed url))) := by
  unfold extract_video_id url_patterns
  cases h1 : searchPat pat_v url with
  | some t =>
    rw [List.findSome?_cons_of_isSome _ (by simp only [h1, Option.isSome_some])]
    simp only [h1, Option.or_some]
  | none =>
    rw [List.findSome?_cons_of_isNone _ (by simp only [h1, Option.isNone_none])]
    cases h2 : searchPat pat_youtu url with
    | some t =>
      rw [List.findSome?_cons_of_isSome _
        (by simp only [h2, Option.isSome_some])]
      simp only [h1, h2, Option.none_or, Option.or_some]
    | none =>
      rw [List.findSome?_cons_of_isNone _
        (by simp only [h2, Option.isNone_none])]
      cases h3 : searchPat pat_embed url with
      | some t =>
        rw [List.findSome?_cons_of_isSome _
          (by simp only [h3, Option.isSome_some])]
        simp only [h1, h2, h3, Option.none_or, Option.or_some]
      | none =>
        rw [List.findSome?_cons_of_isNone _
          (by simp only [h3, Option.isNone_none])]
        simp only [List.findSome?_nil, h1, h2, h3, Option.none_or]

/-- C5: `extract_video_id` tries the three patterns in fixed order and
returns the first capture; any valid eleven character token embedded in
each of the three URL shapes is extracted identically; a URL matching no
pattern yields the not-found signal; and every returned token is a full
eleven character id token, never partial or incorrect. -/
theorem extract_video_id_spec :
    (∀ url : List Char,
      extract_video_id url =
        ((searchPat pat_v url).or
          ((searchPat pat_youtu url).or (searchPat pat_embed url)))) ∧
    (∀ tok : List Char, tok.length = 11 → tok.all isIdChar = true →
      extract_video_id (pat_v ++ tok) = some tok ∧
      extract_video_id (pat_youtu ++ tok) = some tok ∧
      extract_video_id (pat_embed ++ tok) = some tok) ∧
    (∀ url : List Char,
      searchPat pat_v url = none →
      searchPat pat_youtu url = none →
      searchPat pat_embed url = none →
      extract_video_id url = none) ∧
    (∀ url tok : List Char, extract_video_id url = some tok →
      tok.length = 11 ∧ tok.all isIdChar = true) := by
  refine ⟨extract_video_id_eq_or, ?_, ?_, ?_⟩
  · intro tok h11 hall
    have hveq : searchPat pat_v (pat_v ++ tok) = some tok :=
      searchPat_of_matchAt (matchAt_append h11 hall)
    have hyoutu : searchPat pat_youtu (pat_youtu ++ tok) = some tok :=
      searchPat_of_matchAt (matchAt_append h11 hall)
    have hembed : searchPat pat_embed (pat_embed ++ tok) = some tok :=
      searchPat_of_matchAt (matchAt_append h11 hall)
    have hv_youtu : searchPat pat_v (pat_youtu ++ tok) = none :=
      searchPat_none_of_not_mem '=' pat_v (by decide)
        (not_mem_append_idtok (by decide) (by decide) hall)
    have hv_embed : searchPat pat_v (pat_embed ++ tok) = none :=
      searchPat_none_of_not_mem '=' pat_v (by decide)
        (not_mem_append_idtok (by decide) (by decide) hall)
    have hy_embed : searchPat pat_youtu (pat_embed ++ tok) = none :=
      searchPat_none_of_not_mem '.' pat_youtu (by decide)
        (not_mem_append_idtok (by decide) (by decide) hall)
    refine ⟨?_, ?_, ?_⟩
    · rw [extract_video_id_eq_or, hveq]
      rfl
    · rw [extract_video_id_eq_or, hv_youtu, hyoutu]
      rfl
    · rw [extract_video_id_eq_or, hv_embed, hy_embed, hembed]
      rfl
  · intro url h1 h2 h3
    rw [extract_video_id_eq_or, h1, h2, h3]
    rfl
  · intro url tok h
    rw [extract_video_id_eq_or] at h
    rcases Option.or_eq_some.mp h with h1 | ⟨_, h23⟩
    · exact searchPat_sound h1
    · rcases Option.or_eq_some.mp h23 with h2 | ⟨_, h3⟩
      · exact searchPat_sound h2
      · exact searchPat_sound h3

/-- Witness for C5 at the token "abcdefghijk" in all three URL shapes. -/
theorem extract_video_id_spec_witness :
    extract_video_id ("v=".toList ++ "abcdefghijk".toList) =
      some ("abcdefghijk".toList) ∧
    extract_video_id ("youtu.be/".toList ++ "abcdefghijk".toList) =
      some ("abcdefghijk".toList) ∧
    extract_video_id ("embed/".toList ++ "abcdefghijk".toList) =
      some ("abcdefghijk".toList) :=
  extract_video_id_spec.2.1 ("abcdefghijk".toList) (by decide) (by decide)

/-- C7: when the summarizer output starts with the failure marker, the
endpoint returns a 500 whose error message is that entire string, and no
success payload is produced. -/
theorem summarizer_failure_spec (env : RequestEnv) (u v : List Char)
    (t : List TEntry)
    (hurl : env.url = some u) (hne : u.isEmpty = false)
    (hv : extract_video_id u = some v)
    (ht : get_transcript_fallback env.api = .ok t)
    (hfail :
      ("Failed to generate summary:".toList).isPrefixOf env.gemini_out
        = true) :
    summarize_video env = .err 500 env.gemini_out ∧
    ∀ p : Payload, summarize_video env ≠ .ok p := by
  have hmain : summarize_video env = .err 500 env.gemini_out := by
    unfold summarize_video
    rw [hurl]
    simp only [hne, Bool.false_eq_true, if_false, hv, ht, hfail, if_true]
  refine ⟨hmain, fun p hc => ?_⟩
  rw [hmain] at hc
  cases hc

/-- Witness for C7: a concrete request whose summarizer returns a
marker-prefixed failure string yields the 500 with that exact message. -/
theorem summarizer_failure_spec_witness :
    summarize_video
      { url := some ("v=abcdefghijk".toList),
        api := ⟨Except.ok [⟨"hello".toList, 0, 1⟩], Except.ok []⟩,
        gemini_out := "Failed to generate summary: boom".toList,
        video_info := .empty } =
      .err 500 ("Failed to generate summary: boom".toList) :=
  (summarizer_failure_spec
    { url := some ("v=abcdefghijk".toList),
      api := ⟨Except.ok [⟨"hello".toList, 0, 1⟩], Except.ok []⟩,
      gemini_out := "Failed to generate summary: boom".toList,
      video_info := .empty }
    ("v=abcdefghijk".toList) ("abcdefghijk".toList)
    [⟨"hello".toList, 0, 1⟩] rfl rfl (by decide) rfl (by decide)).1

/-- Reading time arithmetic: four hundred words at two hundred words a
minute give the double 2.0 exactly (no rounding error on the exact
quotient 2). -/
theorem py_reading_time_of_eq_400 {n : ℕ} (h : n = 400) :
    py_reading_time n = 2 := by
  subst h
  have hp : pyRound1Pair (floatOfRatAux 400 200) = (4503599627370496, 1) :=
    by decide
  unfold py_reading_time
  rw [hp]
  have ht : (51 : ℤ).toNat = 51 := by decide
  norm_num [dyadicVal, ht]

/-- The request of the C8 counterexample: a thirty-word transcript. -/
def env30 : RequestEnv :=
  { url := some ("v=abcdefghijk".toList),
    api := ⟨Except.ok
      [⟨"w w w w w w w w w w w w w w w w w w w w w w w w w w w w w w".toList,
        0, 1⟩], Except.ok []⟩,
    gemini_out := "S".toList,
    video_info := .empty }

/-- The payload `summarize_video` produces on `env30`: thirty words,
whose reading time is the double 0.1. -/
def payload30 : Payload :=
  { transcript :=
      "w w w w w w w w w w w w w w w w w w w w w w w w w w w w w w".toList,
    summary := "S".toList,
    keyPoints := [],
    tags := fixed_tags,
    wordCount := 30,
    readingTime := py_reading_time 30,
    videoInfo := .empty }

/-- C8 fails as stated: for a thirty-word trimmed transcript the exact
value of word_count / 200 is 0.15, whose one-decimal rounding is 0.2
under both the ties-to-even and the ties-up rule, but the program
computes round(30 / 200, 1) on the binary64 quotient, which lies below
0.15, and returns the double 0.1 — so readingTime is not
"wordCount / 200 rounded to one decimal place", neither as the exact
rational 0.2 nor as the double nearest 0.2. -/
theorem reading_time_float_cex :
    summarize_video env30 = .ok payload30 ∧
    payload30.wordCount = 30 ∧
    spec_reading_time 30 = 2 / 10 ∧
    payload30.readingTime = dyadicVal (floatOfRatAux 1 10) ∧
    payload30.readingTime ≠ spec_reading_time 30 ∧
    payload30.readingTime ≠ dyadicVal (floatOfRatAux 2 10) := by
  have h30 : payload30.readingTime =
      ((7205759403792794 : ℕ) : ℚ) / ((2 ^ 56 : ℕ) : ℚ) := by
    have hp : pyRound1Pair (floatOfRatAux 30 200) = (7205759403792794, -4) :=
      by decide
    show py_reading_time 30 = _
    unfold py_reading_time
    rw [hp]
    have ht : (56 : ℤ).toNat = 56 := by decide
    norm_num [dyadicVal, ht]
  have hs : spec_reading_time 30 = 2 / 10 := by
    have h2 : halfEvenNat 30 20 = 2 := by decide
    unfold spec_reading_time
    rw [h2]
    norm_num
  have h110 : dyadicVal (floatOfRatAux 1 10) =
      ((7205759403792794 : ℕ) : ℚ) / ((2 ^ 56 : ℕ) : ℚ) := by
    have hp : floatOfRatAux 1 10 = (7205759403792794, -4) := by decide
    rw [hp]
    have ht : (56 : ℤ).toNat = 56 := by decide
    norm_num [dyadicVal, ht]
  have h210 : dyadicVal (floatOfRatAux 2 10) =
      ((7205759403792794 : ℕ) : ℚ) / ((2 ^ 55 : ℕ) : ℚ) := by
    have hp : floatOfRatAux 2 10 = (7205759403792794, -3) := by decide
    rw [hp]
    have ht : (55 : ℤ).toNat = 55 := by decide
    norm_num [dyadicVal, ht]
  refine ⟨by rfl, rfl, hs, by rw [h30, h110], ?_, ?_⟩
  · rw [h30, hs]
    norm_num
  · rw [h30, h210]
    norm_num

/-- C8 amended: in any success payload, `wordCount` is the number of
whitespace separated tokens of the transcript field (which holds the
trimmed transcript, not the summary) and `readingTime` is
`wordCount / 200` computed in binary64 and rounded to one decimal place
the way Python round rounds floats; four hundred words still give a
reading time of exactly two. -/
theorem payload_word_count_spec (env : RequestEnv) (p : Payload)
    (h : summarize_video env = .ok p) :
    p.wordCount = (pySplit p.transcript).length ∧
    p.readingTime = py_reading_time p.wordCount ∧
    (p.wordCount = 400 → p.readingTime = 2) := by
  simp only [summarize_video] at h
  split at h
  · cases h
  · split at h
    · cases h
    · split at h
      · cases h
      · split at h
        · cases h
        · cases h
        · split at h
          · cases h
          · cases h
            exact ⟨rfl, rfl, fun h400 => py_reading_time_of_eq_400 h400⟩

/-- Sample request: a valid URL, a successful English transcript of two
words, and a well-formed summarizer output. -/
def sampleEnv : RequestEnv :=
  { url := some ("v=abcdefghijk".toList),
    api := ⟨Except.ok [⟨"hello world".toList, 0, 1⟩], Except.ok []⟩,
    gemini_out := "Summary.\n- a".toList,
    video_info := .empty }

/-- The payload `summarize_video` produces on `sampleEnv`. -/
def samplePayload : Payload :=
  { transcript := "hello world".toList,
    summary := "Summary.".toList,
    keyPoints := ["a".toList],
    tags := fixed_tags,
    wordCount := 2,
    readingTime := py_reading_time 2,
    videoInfo := .empty }

/-- Witness for C8 on the sample request. -/
theorem payload_word_count_spec_witness :
    samplePayload.wordCount = (pySplit samplePayload.transcript).length ∧
    samplePayload.readingTime = py_reading_time samplePayload.wordCount :=
  ⟨(payload_word_count_spec sampleEnv samplePayload (by rfl)).1,
   (payload_word_count_spec sampleEnv samplePayload (by rfl)).2.1⟩

/-- The request of the C10 counterexample: the summarizer output has a
second bullet line whose leading run "-" is interrupted by a tab. -/
def bulletCexEnv : RequestEnv :=
  { url := some ("v=abcdefghijk".toList),
    api := ⟨Except.ok [⟨"hi".toList, 0, 1⟩], Except.ok []⟩,
    gemini_out := "- a\n-\t-b".toList,
    video_info := .empty }

/-- The payload `summarize_video` produces on `bulletCexEnv`: the key
point "-b" keeps its leading dash. -/
def bulletCexPayload : Payload :=
  { transcript := "hi".toList,
    summary := [],
    keyPoints := ["a".toList, "-b".toList],
    tags := fixed_tags,
    wordCount := 1,
    readingTime := py_reading_time 1,
    videoInfo := .empty }

/-- C10 fails as stated: `lstrip("-• ")` stops at the first character
outside its set, so a tab interleaved in the leading run lets a dash
survive the strip; the success payload for `bulletCexEnv` carries the
key point "-b", which begins with '-'. -/
theorem keypoints_leading_dash_cex :
    summarize_video bulletCexEnv = .ok bulletCexPayload ∧
    "-b".toList ∈ bulletCexPayload.keyPoints ∧
    ("-b".toList).head? = some '-' :=
  ⟨by rfl, by decide, by decide⟩

/-- A head surviving `dropWhile` falsifies the predicate. -/
theorem head?_dropWhile_false {α : Type} {p : α → Bool} {l : List α}
    {a : α} (h : (l.dropWhile p).head? = some a) : p a = false := by
  have hm := List.head?_dropWhile_not p l
  rw [h] at hm
  exact hm

/-- `dropWhile` returns a suffix, so its last element is the last
element of the original list. -/
theorem getLast?_dropWhile_of_eq {α : Type} {p : α → Bool} {l : List α}
    {a : α} (h : (l.dropWhile p).getLast? = some a) :
    l.getLast? = some a := by
  obtain ⟨t, ht⟩ := (List.dropWhile_suffix p : l.dropWhile p <:+ l)
  rw [← ht, List.getLast?_append, h]
  rfl

/-- The strip never leaves leading whitespace. -/
theorem pyStrip_head_not_space {l : List Char} {c : Char}
    (h : (pyStrip l).head? = some c) : isPySpace c = false := by
  unfold pyStrip at h
  rw [List.head?_reverse] at h
  have h2 := getLast?_dropWhile_of_eq h
  rw [List.getLast?_reverse] at h2
  exact head?_dropWhile_false h2

/-- The strip never leaves trailing whitespace. -/
theorem pyStrip_getLast_not_space {l : List Char} {c : Char}
    (h : (pyStrip l).getLast? = some c) : isPySpace c = false := by
  unfold pyStrip at h
  rw [List.getLast?_reverse] at h
  exact head?_dropWhile_false h

/-- Every bullet accumulated by the scan is the stripped form of some
line. -/
theorem scan_bullets_origin :
    ∀ (lines : List (List Char)) (st : ScanState) (b : List Char),
      b ∈ (List.foldl scanStep st lines).bullets →
      b ∈ st.bullets ∨ ∃ l, b = strip_bullet_line l := by
  intro lines
  induction lines with
  | nil =>
    intro st b h
    exact Or.inl h
  | cons l rs ih =>
    intro st b h
    rw [List.foldl_cons] at h
    rcases ih (scanStep st l) b h with h' | h'
    · by_cases hc : (st.hit_bullets || bullet_match l) = true
      · simp only [scanStep, hc, if_true] at h'
        rcases List.mem_append.mp h' with h'' | h''
        · exact Or.inl h''
        · exact Or.inr ⟨l, List.mem_singleton.mp h''⟩
      · simp only [scanStep, hc, if_false] at h'
        exact Or.inl h'
    · exact Or.inr h'

/-- Composer invariant: every key point is non-empty and trimmed of
whitespace on both ends. -/
theorem compose_keypoints_prop (out : List Char) :
    ∀ b ∈ (compose_summary out).2, b ≠ [] ∧
      (∀ c, b.head? = some c → isPySpace c = false) ∧
      (∀ c, b.getLast? = some c → isPySpace c = false) := by
  intro b hb
  simp only [compose_summary] at hb
  rw [List.mem_filter] at hb
  obtain ⟨hmem, hne⟩ := hb
  have hne' : b ≠ [] := by
    intro hnil
    rw [hnil] at hne
    cases hne
  rcases scan_bullets_origin (splitLines out) ⟨[], [], false⟩ b hmem with
    h0 | ⟨l, hl⟩
  · cases h0
  · subst hl
    unfold strip_bullet_line
    refine ⟨by rw [strip_bullet_line] at hne'; exact hne', ?_, ?_⟩
    · intro c hc
      exact pyStrip_head_not_space hc
    · intro c hc
      exact pyStrip_getLast_not_space hc

/-- C10 amended: every element of `keyPoints` in a success payload is a
non-empty string with neither leading nor trailing whitespace (bullet
lines are stripped of leading '-', '•' and space characters, trimmed,
and empties filtered out); a leading '-' or '•' can still survive when a
non-space whitespace character such as a tab interrupts the leading
run, since only '-', '•' and the space character are stripped. -/
theorem keypoints_nonempty_trimmed (env : RequestEnv) (p : Payload)
    (h : summarize_video env = .ok p) :
    ∀ b ∈ p.keyPoints, b ≠ [] ∧
      (∀ c, b.head? = some c → isPySpace c = false) ∧
      (∀ c, b.getLast? = some c → isPySpace c = false) := by
  simp only [summarize_video] at h
  split at h
  · cases h
  · split at h
    · cases h
    · split at h
      · cases h
      · split at h
        · cases h
        · cases h
        · split at h
          · cases h
          · cases h
            exact compose_keypoints_prop _

/-- Witness for the amended C10 on the counterexample payload: its key
point "a" is non-empty with no surrounding whitespace. -/
theorem keypoints_nonempty_trimmed_witness :
    "a".toList ∈ bulletCexPayload.keyPoints ∧ "a".toList ≠ [] :=
  ⟨by decide,
   (keypoints_nonempty_trimmed bulletCexEnv bulletCexPayload (by rfl)
     ("a".toList) (by decide)).1⟩

end YT
